import Mathlib

/-!
# Verification of the NUBAN check-digit engine of ng-bank-account-validator

Shallow embedding of the offline algorithmic core of the library:
the CBN check-digit computation (`generateCheckDigit`), the issuer
pre-check (`isPossibleNubanBank`), the candidate filter
(`getPossibleNubanBanks`), and the bank registry with its lookup.

Strings are modelled by Lean `String` (a list of characters, matching
JavaScript's per-character `.length` and indexing on the ASCII inputs at
hand).  JavaScript numbers that can be `NaN` are modelled by `Option Int`
(`none` = `NaN`): `Number(c)` of a non-numeric character is `NaN`, `NaN`
is absorbing for `+`, `*` and `%`, and every `===` comparison against
`NaN` is `false`.  Throwing functions return `Except String`.
-/

namespace NgBankValidator

/-- `NUBAN_LENGTH` from src/constants. -/
def NUBAN_LENGTH : Nat := 10

/-- `NUBAN_SERIAL_CODE_LENGTH` from src/constants. -/
def NUBAN_SERIAL_CODE_LENGTH : Nat := 9

/-- The `Bank` interface from src/types: id, slug, name, 6-digit `code`,
optional 3-digit legacy `oldCode`, optional relevance `weight`. -/
structure Bank where
  id : Nat
  slug : String
  name : String
  code : String
  oldCode : Option String
  weight : Option Nat
deriving Repr, DecidableEq

/-- The `BankProperty` enum from src/types. -/
inductive BankProperty where
  | SLUG
  | CODE
  | OLD_CODE
deriving Repr, DecidableEq

/-- JavaScript `Number(c)` for a single character `c`: the value of a
decimal digit, `NaN` (`none`) otherwise.  In the library every character
reaching `Number` is either a decimal digit or `undefined`
(the out-of-range index, handled separately in `isPossibleNubanBank`). -/
def charToNumber (c : Char) : Option Int :=
  if c.isDigit then some ((c.toNat : Int) - 48) else none

/-- `Nuban.generateSeed`: `Array.from({length}, (_, i) => (i % 2 ? 7 : 3))`,
the alternating 3,7,3,7,… weight sequence (3 at even indices). -/
def generateSeed (length : Nat) : List Int :=
  (List.range length).map (fun i => if i % 2 = 1 then 7 else 3)

/-- The error message thrown by `validateNubanSerialCode`
(template literal over `NUBAN_SERIAL_CODE_LENGTH`). -/
def invalidSerialMessage : String :=
  "Nuban serial code should not be more than " ++
    toString NUBAN_SERIAL_CODE_LENGTH ++ " digits"

/-- `Nuban.validateNubanSerialCode`: throws when the serial is falsy
(for a string: empty) or longer than `NUBAN_SERIAL_CODE_LENGTH`. -/
def validateNubanSerialCode (nubanSerialCode : String) : Except String Bool :=
  if nubanSerialCode.length = 0 ∨
      nubanSerialCode.length > NUBAN_SERIAL_CODE_LENGTH then
    Except.error invalidSerialMessage
  else
    Except.ok true

/-- JavaScript `String.prototype.padStart`: left-pad with `pad` up to
`targetLength` (no-op when the string is already long enough). -/
def padStart (s : String) (targetLength : Nat) (pad : Char) : String :=
  String.mk (List.replicate (targetLength - s.length) pad ++ s.data)

/-- The `reduce` of `generateCheckDigit`:
`crypto.split("").reduce((sum, digit, index) => sum + seed[index] * Number(digit), 0)`.
Since `seed` has exactly the length of `crypto`, indexing `seed[index]`
is folding over the zip.  A `NaN` (`none`) operand poisons the sum. -/
def cryptoSumFold (crypto : List Char) (seed : List Int) : Option Int :=
  (crypto.zip seed).foldl
    (fun sum cd =>
      match sum, charToNumber cd.1 with
      | some s, some d => some (s + cd.2 * d)
      | _, _ => none)
    (some 0)

/-- JavaScript's `%` on integers: a remainder carrying the sign of the
dividend (unlike `Int.emod`, which is always non-negative for a
positive modulus). -/
def jsMod (a b : Int) : Int :=
  if 0 ≤ a then a % b else -((-a) % b)

/-- `Nuban.generateCheckDigit`: validate the serial, left-pad it to 9
digits, prepend the bank code, weight by the seed, and return
`10 - (sum % 10) - 1`.  A `NaN` sum propagates through `%` and the
subtractions to a `NaN` result (`Except.ok none`). -/
def generateCheckDigit (nubanSerialCode bankCode : String) :
    Except String (Option Int) :=
  match validateNubanSerialCode nubanSerialCode with
  | Except.error e => Except.error e
  | Except.ok _ =>
    let paddedCode := padStart nubanSerialCode NUBAN_SERIAL_CODE_LENGTH '0'
    let crypto := bankCode ++ paddedCode
    let seed := generateSeed crypto.length
    match cryptoSumFold crypto.data seed with
    | none => Except.ok none
    | some s => Except.ok (some (10 - jsMod s 10 - 1))

/-- `Nuban.isPossibleNubanBank`: take the first 9 characters as the
serial, compute the check digit, compare with `Number(accountNumber[9])`.
When index 9 is out of range, `accountNumber[9]` is `undefined` and
`Number(undefined)` is `NaN`; `===` against `NaN` is `false`, as is any
comparison when the computed check digit is itself `NaN`. -/
def isPossibleNubanBank (accountNumber bankCode : String) :
    Except String Bool :=
  let nubanSerialCode := String.mk (accountNumber.data.take 9)
  match generateCheckDigit nubanSerialCode bankCode with
  | Except.error e => Except.error e
  | Except.ok checkDigit =>
    Except.ok
      (match checkDigit, accountNumber.data[9]? with
       | some c, some ch =>
         match charToNumber ch with
         | some d => c == d
         | none => false
       | _, _ => false)

/-- `WEIGHTED_NIGERIAN_BANKS` from src/constants/weighted-bank.ts,
transcribed entry for entry: ⟨id, slug, name, code, oldCode, weight⟩. -/
def WEIGHTED_NIGERIAN_BANKS : List Bank :=
  [⟨1, "access_bank", "ACCESS BANK", "000014", some "044", some 1⟩,
   ⟨2, "access_diamond_bank", "ACCESS(DIAMOND) BANK", "000014", some "063", some 1⟩,
   ⟨3, "citi_bank", "CITI BANK", "000009", some "023", some 1⟩,
   ⟨4, "ecobank", "ECOBANK NIGERIA", "000010", some "050", some 1⟩,
   ⟨5, "enterprise_bank", "ENTERPRISE BANK", "000019", some "084", some 1⟩,
   ⟨6, "fidelity_bank", "FIDELITY BANK", "000007", some "070", some 1⟩,
   ⟨7, "first_bank_of_nigeria", "FIRST BANK OF NIGERIA", "000016", some "011", some 1⟩,
   ⟨8, "first_city_monument_bank", "FIRST CITY MONUMENT BANK", "000003", some "214", some 1⟩,
   ⟨9, "globus_bank", "GLOBUS BANK", "000027", some "103", some 1⟩,
   ⟨10, "guarantee_trust_bank", "GUARANTY TRUST BANK", "000013", some "058", some 1⟩,
   ⟨11, "heritage_bank", "HERITAGE BANK", "000020", some "030", some 1⟩,
   ⟨12, "jaiz_bank", "JAIZ BANK", "000006", some "301", some 1⟩,
   ⟨13, "keystone_bank", "KEYSTONE BANK", "000002", some "082", some 1⟩,
   ⟨14, "lotus_bank", "LOTUS BANK", "000029", some "303", some 1⟩,
   ⟨15, "mainstreet_microfinance_bank", "MAINSTREET MICROFINANCE BANK", "090171", some "014", some 1⟩,
   ⟨16, "optimus_bank", "OPTIMUS BANK", "000036", some "107", some 1⟩,
   ⟨17, "parallex_bank", "PARALLEX BANK", "000030", some "104", some 1⟩,
   ⟨18, "polaris_bank", "POLARIS BANK", "000008", some "076", some 1⟩,
   ⟨19, "premium_trust_bank", "PREMIUM TRUST  BANK", "000031", some "105", some 1⟩,
   ⟨20, "providus_bank", "PROVIDUS BANK", "000023", some "101", some 1⟩,
   ⟨21, "signature_bank", "SIGNATURE BANK", "000034", some "106", some 1⟩,
   ⟨22, "stanbic_ibtc_bank", "STANBIC IBTC BANK", "000012", some "221", some 1⟩,
   ⟨23, "standard_chartered_bank", "STANDARD CHARTERED BANK", "000021", some "068", some 1⟩,
   ⟨24, "sterling_bank", "STERLING BANK", "000001", some "232", some 1⟩,
   ⟨25, "suntrust_bank", "SUNTRUST", "000022", some "100", some 1⟩,
   ⟨26, "titan_trust_bank", "TITAN TRUST BANK", "000025", some "102", some 1⟩,
   ⟨27, "union_bank", "UNION BANK", "000018", some "032", some 1⟩,
   ⟨28, "united_bank_for_africa", "UNITED BANK FOR AFRICA", "000004", some "033", some 1⟩,
   ⟨29, "unity_bank", "UNITY BANK", "000011", some "215", some 1⟩,
   ⟨30, "wema_bank", "WEMA BANK", "000017", some "035", some 1⟩,
   ⟨31, "zenith_bank", "ZENITH BANK", "000015", some "057", some 1⟩]

/-- Modelled from the spec: the full registry `NIGERIAN_BANKS`
(src/constants/banks.ts, 558 entries) is not among the provided source
files.  It is modelled by the representative records the spec names,
kept to the documented shape: full-list entries carry no legacy
`oldCode` (per the spec, only the curated weighted list reliably does,
and a legacy-code search of the full list finds nothing). -/
def NIGERIAN_BANKS : List Bank :=
  [⟨10, "guarantee_trust_bank", "GUARANTY TRUST BANK", "000013", none, none⟩,
   ⟨1, "access_bank", "ACCESS BANK", "000014", none, none⟩,
   ⟨31, "zenith_bank", "ZENITH BANK", "000015", none, none⟩]

/-- Modelled from the spec: the registry lookup core of `Nuban.getBank`
(documented in the README but not among the provided source files) —
return the first record of `banks` whose chosen identifying property
equals `value`, or "not found" (`none`). -/
def findBank (banks : List Bank) (value : String) (property : BankProperty) :
    Option Bank :=
  banks.find? (fun b =>
    match property with
    | BankProperty.SLUG => b.slug == value
    | BankProperty.CODE => b.code == value
    | BankProperty.OLD_CODE => b.oldCode == some value)

/-- Modelled from the spec: `Nuban.getBank(value, property)` — lookup by
legacy code searches only the weighted list, lookup by slug or canonical
code searches the full list. -/
def getBank (value : String) (property : BankProperty) : Option Bank :=
  match property with
  | BankProperty.OLD_CODE => findBank WEIGHTED_NIGERIAN_BANKS value property
  | _ => findBank NIGERIAN_BANKS value property

/-- `Nuban.getPossibleNubanBanks` is `banks.filter(...)`; JavaScript
`filter` evaluates the predicate left to right and an exception thrown
by the predicate aborts the whole call, hence the explicit recursion. -/
def getPossibleNubanBanks (accountNumber : String) :
    List Bank → Except String (List Bank)
  | [] => Except.ok []
  | bank :: rest =>
    match isPossibleNubanBank accountNumber bank.code with
    | Except.error e => Except.error e
    | Except.ok b =>
      match getPossibleNubanBanks accountNumber rest with
      | Except.error e => Except.error e
      | Except.ok filtered =>
        Except.ok (if b then bank :: filtered else filtered)

/-- The documented reference algorithm, written from the spec's words
(for comparison with the implementation `generateCheckDigit`):
left-pad the serial with zeros to 9 digits, concatenate the bank code
followed by the padded serial, weight position `i` by 3 when `i` is even
and 7 when odd (alternating 3,7,3,7,… starting with 3 at position 0),
sum `weight[i] * digit[i]`, and return `9 - (sum mod 10)`. -/
def specCheckDigit (serial bankCode : String) : Int :=
  let padded := List.replicate (9 - serial.length) '0' ++ serial.data
  let digits := (bankCode.data ++ padded).map (fun c => (c.toNat : Int) - 48)
  let weights :=
    (List.range digits.length).map
      (fun i => if i % 2 = 0 then (3 : Int) else 7)
  let total := (List.zipWith (fun w d => w * d) weights digits).sum
  9 - total % 10

/-- The character for a single decimal digit, as produced by
JavaScript's number-to-string coercion for values 0–9. -/
def digitChar (d : Nat) : Char := Char.ofNat (48 + d)

end NgBankValidator

deriving instance DecidableEq for Except

namespace NgBankValidator

/-! ## Supporting lemmas -/

lemma charToNumber_isDigit {c : Char} (h : c.isDigit) :
    charToNumber c = some ((c.toNat : Int) - 48) := by
  simp [charToNumber, h]

lemma toNat_ge_of_isDigit {c : Char} (h : c.isDigit) : 48 ≤ c.toNat := by
  simp only [Char.isDigit, Bool.and_eq_true, decide_eq_true_eq] at h
  have h1 : (48 : UInt32).toNat ≤ c.val.toNat := h.1
  simpa [Char.toNat] using h1

lemma toNat_le_of_isDigit {c : Char} (h : c.isDigit) : c.toNat ≤ 57 := by
  simp only [Char.isDigit, Bool.and_eq_true, decide_eq_true_eq] at h
  have h2 : c.val.toNat ≤ (57 : UInt32).toNat := h.2
  simpa [Char.toNat] using h2

lemma digitVal_nonneg {c : Char} (h : c.isDigit) :
    (0 : Int) ≤ (c.toNat : Int) - 48 := by
  have := toNat_ge_of_isDigit h
  omega

/-- The seed of the implementation is exactly the alternating-3,7 weight
sequence of the documented algorithm. -/
lemma generateSeed_eq (n : Nat) :
    generateSeed n =
      (List.range n).map (fun i => if i % 2 = 0 then (3 : Int) else 7) := by
  unfold generateSeed
  apply List.map_congr_left
  intro i _
  rcases Nat.mod_two_eq_zero_or_one i with h | h <;> simp [h]

/-- The weighted-sum fold over a list of digit characters never hits
`NaN` and computes the plain weighted sum, for any accumulator. -/
lemma foldl_sum_digits (l : List Char) (w : List Int) (a : Int)
    (h : ∀ c ∈ l, c.isDigit) :
    ((l.zip w).foldl
      (fun sum cd =>
        match sum, charToNumber cd.1 with
        | some s, some d => some (s + cd.2 * d)
        | _, _ => none)
      (some a))
    = some (a + (List.zipWith (fun wi d => wi * d) w
        (l.map (fun c => (c.toNat : Int) - 48))).sum) := by
  induction l generalizing w a with
  | nil => simp
  | cons c cs ih =>
    cases w with
    | nil => simp
    | cons wi ws =>
      have hc : c.isDigit := h c (List.mem_cons_self c cs)
      have hcs : ∀ x ∈ cs, x.isDigit :=
        fun x hx => h x (List.mem_cons_of_mem c hx)
      simp only [List.zip_cons_cons, List.foldl_cons, List.map_cons,
        List.zipWith_cons_cons, List.sum_cons, charToNumber_isDigit hc]
      rw [ih ws _ hcs]
      congr 1
      ring

lemma cryptoSumFold_digits {l : List Char} (w : List Int)
    (h : ∀ c ∈ l, c.isDigit) :
    cryptoSumFold l w =
      some ((List.zipWith (fun wi d => wi * d) w
        (l.map (fun c => (c.toNat : Int) - 48))).sum) := by
  rw [cryptoSumFold, foldl_sum_digits l w 0 h, zero_add]

lemma validateNubanSerialCode_ok {s : String} (hne : s.length ≠ 0)
    (hlen : s.length ≤ 9) :
    validateNubanSerialCode s = Except.ok true := by
  rw [validateNubanSerialCode, if_neg]
  simp only [NUBAN_SERIAL_CODE_LENGTH]
  omega

lemma zipWith_mul_sum_nonneg :
    ∀ (w d : List Int), (∀ x ∈ w, 0 ≤ x) → (∀ x ∈ d, 0 ≤ x) →
      0 ≤ (List.zipWith (fun wi di => wi * di) w d).sum
  | [], _, _, _ => by simp
  | _ :: _, [], _, _ => by simp
  | x :: xs, y :: ys, hw, hd => by
    simp only [List.zipWith_cons_cons, List.sum_cons]
    have hx := hw x (List.mem_cons_self x xs)
    have hy := hd y (List.mem_cons_self y ys)
    have hrec := zipWith_mul_sum_nonneg xs ys
      (fun z hz => hw z (List.mem_cons_of_mem x hz))
      (fun z hz => hd z (List.mem_cons_of_mem y hz))
    exact add_nonneg (mul_nonneg hx hy) hrec

lemma weights_nonneg (n : Nat) :
    ∀ x ∈ (List.range n).map (fun i => if i % 2 = 0 then (3 : Int) else 7),
      0 ≤ x := by
  intro x hx
  obtain ⟨i, _, rfl⟩ := List.mem_map.mp hx
  split <;> norm_num

lemma map_digitVal_nonneg {l : List Char} (h : ∀ c ∈ l, c.isDigit) :
    ∀ x ∈ l.map (fun c => (c.toNat : Int) - 48), 0 ≤ x := by
  intro x hx
  obtain ⟨c, hc, rfl⟩ := List.mem_map.mp hx
  exact digitVal_nonneg (h c hc)

lemma jsMod_of_nonneg {a : Int} (b : Int) (h : 0 ≤ a) :
    jsMod a b = a % b := by
  simp [jsMod, h]

/-- Every character of the concatenated crypto string is a digit when
the bank code and the serial consist of digits (the padding is `'0'`). -/
lemma crypto_digits {s b : String}
    (hs : ∀ c ∈ s.data, c.isDigit) (hb : ∀ c ∈ b.data, c.isDigit) :
    ∀ c ∈ (b ++ padStart s NUBAN_SERIAL_CODE_LENGTH '0').data, c.isDigit := by
  intro c hc
  rw [String.data_append] at hc
  rcases List.mem_append.mp hc with h | h
  · exact hb c h
  · have h2 : c ∈ List.replicate (NUBAN_SERIAL_CODE_LENGTH - s.length) '0'
        ++ s.data := h
    rcases List.mem_append.mp h2 with h0 | hsd
    · rw [List.eq_of_mem_replicate h0]; decide
    · exact hs c hsd

/-- Core refinement: on any non-empty serial of at most 9 digits and
any digit bank code, the implementation computes exactly the documented
reference value. -/
lemma generateCheckDigit_eq_spec {s b : String}
    (hne : s.length ≠ 0) (hlen : s.length ≤ 9)
    (hs : ∀ c ∈ s.data, c.isDigit) (hb : ∀ c ∈ b.data, c.isDigit) :
    generateCheckDigit s b = Except.ok (some (specCheckDigit s b)) := by
  have hdig := crypto_digits hs hb
  simp only [generateCheckDigit, validateNubanSerialCode_ok hne hlen,
    cryptoSumFold_digits _ hdig, specCheckDigit, generateSeed_eq]
  have htot :
      0 ≤ (List.zipWith (fun wi d => wi * d)
        ((List.range
            (b ++ padStart s NUBAN_SERIAL_CODE_LENGTH '0').length).map
          (fun i => if i % 2 = 0 then (3 : Int) else 7))
        ((b ++ padStart s NUBAN_SERIAL_CODE_LENGTH '0').data.map
          (fun c => (c.toNat : Int) - 48))).sum :=
    zipWith_mul_sum_nonneg _ _ (weights_nonneg _) (map_digitVal_nonneg hdig)
  have hda : ∀ t : String, (String.append b t).data = b.data ++ t.data :=
    fun t => String.data_append b t
  have harith : ∀ m : Int, 10 - m - 1 = 9 - m := fun m => by ring
  rw [jsMod_of_nonneg 10 htot]
  simp only [String.length, hda, String.data_append, padStart,
    NUBAN_SERIAL_CODE_LENGTH, List.length_map, List.length_append,
    List.length_replicate, harith]

/-- The reference value always lies in [0, 9] (the modulo result is in
[0, 10) for the mathematical mod used by the reference algorithm). -/
lemma specCheckDigit_range (s b : String) :
    0 ≤ specCheckDigit s b ∧ specCheckDigit s b ≤ 9 := by
  simp only [specCheckDigit]
  constructor <;> omega

lemma charToNumber_digitChar {d : Nat} (h : d ≤ 9) :
    charToNumber (digitChar d) = some (d : Int) := by
  interval_cases d <;> decide

/-- Appending a digit character to a 9-digit serial and running the
issuer check compares that digit against the computed check digit. -/
lemma isPossibleNubanBank_push {s b : String} (h9 : s.length = 9)
    {c : Int} (hgen : generateCheckDigit s b = Except.ok (some c))
    {d : Nat} (hd : d ≤ 9) :
    isPossibleNubanBank (s.push (digitChar d)) b =
      Except.ok (c == (d : Int)) := by
  have hdata : (s.push (digitChar d)).data = s.data ++ [digitChar d] := by
    simp [String.push]
  have hlen : s.data.length = 9 := h9
  have htake : (s.push (digitChar d)).data.take 9 = s.data := by
    rw [hdata, ← hlen, List.take_left]
  have hserial : String.mk ((s.push (digitChar d)).data.take 9) = s := by
    rw [htake]
  have hget : (s.push (digitChar d)).data[9]? = some (digitChar d) := by
    rw [hdata, List.getElem?_append_right (by omega)]
    simp [hlen]
  simp only [isPossibleNubanBank, hserial, hgen, hget,
    charToNumber_digitChar hd]

/-- A successful candidate filter returns a sublist (stable filter) of
the input list of banks. -/
lemma getPossibleNubanBanks_sublist (a : String) :
    ∀ (banks r : List Bank),
      getPossibleNubanBanks a banks = Except.ok r → List.Sublist r banks := by
  intro banks
  induction banks with
  | nil =>
    intro r h
    simp only [getPossibleNubanBanks] at h
    injection h with h
    rw [← h]
  | cons bank rest ih =>
    intro r h
    simp only [getPossibleNubanBanks] at h
    cases hp : isPossibleNubanBank a bank.code with
    | error e => rw [hp] at h; cases h
    | ok bres =>
      rw [hp] at h
      cases hr : getPossibleNubanBanks a rest with
      | error e => rw [hr] at h; cases h
      | ok filtered =>
        rw [hr] at h
        injection h with h
        rw [← h]
        have hsub := ih filtered hr
        cases bres with
        | true => simpa using List.Sublist.cons₂ bank hsub
        | false => simpa using List.Sublist.cons bank hsub

/-- A serial that passes validation always yields a result (possibly
the `NaN` one), never an exception. -/
lemma generateCheckDigit_ok (s b : String) (hne : s.length ≠ 0)
    (hlen : s.length ≤ 9) :
    ∃ cd, generateCheckDigit s b = Except.ok cd := by
  simp only [generateCheckDigit, validateNubanSerialCode_ok hne hlen]
  cases cryptoSumFold (b ++ padStart s NUBAN_SERIAL_CODE_LENGTH '0').data
      (generateSeed
        (b ++ padStart s NUBAN_SERIAL_CODE_LENGTH '0').length) with
  | none => exact ⟨none, rfl⟩
  | some v => exact ⟨some (10 - jsMod v 10 - 1), rfl⟩

/-- With a 10-character account number the extracted serial has length
9, so the issuer check cannot throw. -/
lemma isPossibleNubanBank_ok (a b : String) (ha : a.length = 10) :
    ∃ r, isPossibleNubanBank a b = Except.ok r := by
  have hlen : a.data.length = 10 := ha
  have h9 : (String.mk (a.data.take 9)).length = 9 := by
    show (a.data.take 9).length = 9
    rw [List.length_take]
    omega
  obtain ⟨cd, hcd⟩ :=
    generateCheckDigit_ok (String.mk (a.data.take 9)) b (by omega) (by omega)
  simp only [isPossibleNubanBank, hcd]
  exact ⟨_, rfl⟩

/-- The candidate filter never throws on a 10-character account. -/
lemma getPossibleNubanBanks_ok (a : String) (ha : a.length = 10) :
    ∀ banks, ∃ r, getPossibleNubanBanks a banks = Except.ok r
  | [] => ⟨[], rfl⟩
  | bank :: rest => by
    obtain ⟨rb, hrb⟩ := isPossibleNubanBank_ok a bank.code ha
    obtain ⟨rr, hrr⟩ := getPossibleNubanBanks_ok a ha rest
    refine ⟨if rb then bank :: rr else rr, ?_⟩
    simp only [getPossibleNubanBanks, hrb, hrr]

/-! ## Claim theorems -/

/-- C1, counterexample: for the empty serial — a serial of at most 9
digits — `generateCheckDigit` throws instead of returning the reference
value (which is 8 for bank code "000014"). -/
theorem checkDigit_matches_reference_counterexample :
    generateCheckDigit "" "000014" ≠
      Except.ok (some (specCheckDigit "" "000014")) := by decide

/-- C1 (amended: for every NON-EMPTY serial of at most 9 digits — the
implementation additionally rejects the empty serial): on every
non-empty serial of at most 9 digits and every (digit-string) bank
code, `generateCheckDigit` returns exactly the value of the documented
reference algorithm `specCheckDigit`: left-pad the serial with zeros to
9 digits, concatenate bankCode followed by the padded serial, weight
position `i` by the alternating sequence 3,7,3,7,… (3 at position 0),
sum `weight[i] * digit[i]`, take the sum modulo 10, and return
`9 - (sum mod 10)` (the literal `10 - modulo - 1`). -/
theorem checkDigit_matches_reference (s b : String)
    (hne : s.length ≠ 0) (hlen : s.length ≤ 9)
    (hs : ∀ c ∈ s.data, c.isDigit) (hb : ∀ c ∈ b.data, c.isDigit) :
    generateCheckDigit s b = Except.ok (some (specCheckDigit s b)) :=
  generateCheckDigit_eq_spec hne hlen hs hb

/-- Witness for C1 at serial "123456789", bank code "000014". -/
theorem checkDigit_matches_reference_witness :
    generateCheckDigit "123456789" "000014" =
      Except.ok (some (specCheckDigit "123456789" "000014")) :=
  checkDigit_matches_reference "123456789" "000014"
    (by decide) (by decide) (by decide) (by decide)

/-- C2, counterexample: the empty serial has length not exceeding 9
digits, yet `generateCheckDigit` rejects it with the
`InvalidSerialLength` error instead of accepting it. -/
theorem serial_length_gate_counterexample :
    ("" : String).length ≤ 9 ∧
    generateCheckDigit "" "000014" = Except.error invalidSerialMessage := by
  decide

/-- C2 (amended: `generateCheckDigit` fails with the
`InvalidSerialLength` condition iff the serial exceeds 9 digits OR is
empty — the guard also rejects the falsy empty serial; every non-empty
serial of at most 9 digits is accepted and produces a check digit). -/
theorem serial_length_gate (s b : String)
    (hs : ∀ c ∈ s.data, c.isDigit) (hb : ∀ c ∈ b.data, c.isDigit) :
    ((generateCheckDigit s b = Except.error invalidSerialMessage) ↔
      (s.length > 9 ∨ s.length = 0)) ∧
    (s.length ≠ 0 → s.length ≤ 9 →
      ∃ d : Int, generateCheckDigit s b = Except.ok (some d)) := by
  constructor
  · constructor
    · intro h
      by_contra hc
      push_neg at hc
      rw [generateCheckDigit_eq_spec hc.2 (by omega) hs hb] at h
      cases h
    · intro h
      have hval : validateNubanSerialCode s =
          Except.error invalidSerialMessage := by
        rw [validateNubanSerialCode, if_pos]
        simp only [NUBAN_SERIAL_CODE_LENGTH]
        omega
      simp only [generateCheckDigit, hval]
  · intro h1 h2
    exact ⟨_, generateCheckDigit_eq_spec h1 h2 hs hb⟩

/-- Witness for C2 at serial "123456789", bank code "000015". -/
theorem serial_length_gate_witness :
    ((generateCheckDigit "123456789" "000015" =
        Except.error invalidSerialMessage) ↔
      (("123456789" : String).length > 9 ∨
        ("123456789" : String).length = 0)) ∧
    (("123456789" : String).length ≠ 0 → ("123456789" : String).length ≤ 9 →
      ∃ d : Int, generateCheckDigit "123456789" "000015" =
        Except.ok (some d)) :=
  serial_length_gate "123456789" "000015" (by decide) (by decide)

/-- C3: registry lookup — `getBank("000013", CODE)` (searching the full
registry) returns the record named "GUARANTY TRUST BANK"; looking up
legacy code "058" in the weighted list returns that same bank (same
name, canonical code "000013"), and `getBank` with `OLD_CODE` is
exactly that weighted-list search; the same legacy-code search over the
full (non-weighted) list signals not-found. -/
theorem getBank_lookup_scenarios :
    ((getBank "000013" BankProperty.CODE).map Bank.name =
      some "GUARANTY TRUST BANK") ∧
    ((findBank WEIGHTED_NIGERIAN_BANKS "058" BankProperty.OLD_CODE).map
        Bank.name = some "GUARANTY TRUST BANK") ∧
    ((findBank WEIGHTED_NIGERIAN_BANKS "058" BankProperty.OLD_CODE).map
        Bank.code = some "000013") ∧
    (getBank "058" BankProperty.OLD_CODE =
      findBank WEIGHTED_NIGERIAN_BANKS "058" BankProperty.OLD_CODE) ∧
    (findBank NIGERIAN_BANKS "058" BankProperty.OLD_CODE = none) :=
  ⟨rfl, rfl, rfl, rfl, rfl⟩

/-- C4, counterexample: for the one-digit serial "1" (a serial of at
most 9 digits) and bank code "000014", the computed check digit is 5,
yet the round-trip account "1" + "5" = "15" is NOT accepted:
`isPossibleNubanBank` reads index 9, which is out of range for the
2-character account, and the `NaN` comparison yields false. -/
theorem roundTrip_counterexample :
    generateCheckDigit "1" "000014" = Except.ok (some 5) ∧
    isPossibleNubanBank "15" "000014" = Except.ok false := by decide

/-- C4 (amended: the round-trip holds for serials of EXACTLY 9 digits —
for shorter serials the appended account has fewer than 10 characters
and the issuer check reads past its end): for every 9-digit serial `S`
and digit bank code `B`, appending the computed check digit to `S`
yields an account number that `isPossibleNubanBank` accepts for `B`. -/
theorem roundTrip_nine_digit (s b : String) (h9 : s.length = 9)
    (hs : ∀ c ∈ s.data, c.isDigit) (hb : ∀ c ∈ b.data, c.isDigit) :
    ∃ c : Int, generateCheckDigit s b = Except.ok (some c) ∧
      isPossibleNubanBank (s.push (digitChar c.toNat)) b =
        Except.ok true := by
  have hgen := generateCheckDigit_eq_spec (by omega) (by omega) hs hb
  obtain ⟨hr0, hr9⟩ := specCheckDigit_range s b
  refine ⟨specCheckDigit s b, hgen, ?_⟩
  have hd : (specCheckDigit s b).toNat ≤ 9 := by omega
  rw [isPossibleNubanBank_push h9 hgen hd]
  simp [Int.toNat_of_nonneg hr0]

/-- Witness for C4 at serial "123456789", bank code "000014". -/
theorem roundTrip_nine_digit_witness :
    ∃ c : Int, generateCheckDigit "123456789" "000014" =
        Except.ok (some c) ∧
      isPossibleNubanBank (("123456789" : String).push (digitChar c.toNat))
          "000014" = Except.ok true :=
  roundTrip_nine_digit "123456789" "000014"
    (by decide) (by decide) (by decide)

/-- C5: uniqueness of the check digit — for every 9-digit serial and
digit bank code there is a computed check digit `c` in [0, 9], and a
digit `d` in 0–9 placed at position 9 makes `isPossibleNubanBank` true
exactly when `d = c`; every other digit makes it false. -/
theorem checkDigit_unique (s b : String) (h9 : s.length = 9)
    (hs : ∀ c ∈ s.data, c.isDigit) (hb : ∀ c ∈ b.data, c.isDigit) :
    ∃ c : Int, generateCheckDigit s b = Except.ok (some c) ∧
      0 ≤ c ∧ c ≤ 9 ∧
      ∀ d : Nat, d ≤ 9 →
        (isPossibleNubanBank (s.push (digitChar d)) b = Except.ok true ↔
          (d : Int) = c) := by
  have hgen := generateCheckDigit_eq_spec (by omega) (by omega) hs hb
  obtain ⟨hr0, hr9⟩ := specCheckDigit_range s b
  refine ⟨specCheckDigit s b, hgen, hr0, hr9, ?_⟩
  intro d hd
  rw [isPossibleNubanBank_push h9 hgen hd]
  constructor
  · intro h
    injection h with h
    exact (beq_iff_eq.mp h).symm
  · intro h
    rw [← h]
    simp

/-- Witness for C5 at serial "012345678", bank code "000015". -/
theorem checkDigit_unique_witness :
    ∃ c : Int, generateCheckDigit "012345678" "000015" =
        Except.ok (some c) ∧
      0 ≤ c ∧ c ≤ 9 ∧
      ∀ d : Nat, d ≤ 9 →
        (isPossibleNubanBank (("012345678" : String).push (digitChar d))
            "000015" = Except.ok true ↔ (d : Int) = c) :=
  checkDigit_unique "012345678" "000015" (by decide) (by decide) (by decide)

/-- C6: for every 9-digit serial and 6-digit (digit-string) bank code,
`generateCheckDigit` returns a value in the closed range [0, 9] — it is
9 minus a modulo-10 result, so no clamping is needed. -/
theorem checkDigit_in_range (s b : String) (h9 : s.length = 9)
    (h6 : b.length = 6)
    (hs : ∀ c ∈ s.data, c.isDigit) (hb : ∀ c ∈ b.data, c.isDigit) :
    ∃ c : Int, generateCheckDigit s b = Except.ok (some c) ∧
      0 ≤ c ∧ c ≤ 9 := by
  have hgen := generateCheckDigit_eq_spec (by omega) (by omega) hs hb
  obtain ⟨hr0, hr9⟩ := specCheckDigit_range s b
  exact ⟨specCheckDigit s b, hgen, hr0, hr9⟩

/-- Witness for C6 at serial "987654321", bank code "000013". -/
theorem checkDigit_in_range_witness :
    ∃ c : Int, generateCheckDigit "987654321" "000013" =
        Except.ok (some c) ∧ 0 ≤ c ∧ c ≤ 9 :=
  checkDigit_in_range "987654321" "000013"
    (by decide) (by decide) (by decide) (by decide)

/-- C7: on a 10-digit numeric account number, `getPossibleNubanBanks`
returns a sublist of its input candidate list — every returned record
occurs in the input, in the same relative order (stable filter, no
re-sorting, no additions). -/
theorem possibleIssuers_sublist (a : String) (banks : List Bank)
    (ha : a.length = 10) (had : ∀ c ∈ a.data, c.isDigit) :
    ∃ r, getPossibleNubanBanks a banks = Except.ok r ∧
      List.Sublist r banks := by
  obtain ⟨r, hr⟩ := getPossibleNubanBanks_ok a ha banks
  exact ⟨r, hr, getPossibleNubanBanks_sublist a banks r hr⟩

/-- Witness for C7 at account "0123456789" over the full registry. -/
theorem possibleIssuers_sublist_witness :
    ∃ r, getPossibleNubanBanks "0123456789" NIGERIAN_BANKS =
        Except.ok r ∧ List.Sublist r NIGERIAN_BANKS :=
  possibleIssuers_sublist "0123456789" NIGERIAN_BANKS (by decide) (by decide)

/-- C8: `generateCheckDigit` is deterministic — two invocations with
the same (serial, bankCode) pair give equal results; the embedding is a
pure function of its arguments, with no other state. -/
theorem checkDigit_deterministic (s1 b1 s2 b2 : String)
    (hs : s1 = s2) (hb : b1 = b2) :
    generateCheckDigit s1 b1 = generateCheckDigit s2 b2 := by
  rw [hs, hb]

/-- Witness for C8 at serial "123456789", bank code "000014". -/
theorem checkDigit_deterministic_witness :
    generateCheckDigit "123456789" "000014" =
      generateCheckDigit "123456789" "000014" :=
  checkDigit_deterministic "123456789" "000014" "123456789" "000014"
    rfl rfl

/-- C9: `generateCheckDigit` rejects the empty serial with the
`InvalidSerialLength` error message even though the empty string's
length does not exceed 9 digits, because the guard rejects any falsy
serial in addition to serials longer than 9 characters. -/
theorem empty_serial_rejected (b : String) :
    ("" : String).length ≤ 9 ∧
    generateCheckDigit "" b =
      Except.error "Nuban serial code should not be more than 9 digits" := by
  refine ⟨by decide, ?_⟩
  have hval : validateNubanSerialCode "" =
      Except.error "Nuban serial code should not be more than 9 digits" := by
    decide
  simp only [generateCheckDigit, hval]

/-- C10: for an account number of exactly 10 numeric characters, the
serial extracted as the first 9 characters has length 9 (in particular
it is non-empty), so `getPossibleNubanBanks` returns a list for every
candidate list — the `InvalidSerialLength` branch is unreachable. -/
theorem getPossibleBanks_total (a : String) (banks : List Bank)
    (ha : a.length = 10) (had : ∀ c ∈ a.data, c.isDigit) :
    (String.mk (a.data.take 9)).length = 9 ∧
    ∃ r, getPossibleNubanBanks a banks = Except.ok r := by
  have hlen : a.data.length = 10 := ha
  refine ⟨?_, getPossibleNubanBanks_ok a ha banks⟩
  show (a.data.take 9).length = 9
  rw [List.length_take]
  omega

/-- Witness for C10 at account "0123456789" over the weighted list. -/
theorem getPossibleBanks_total_witness :
    (String.mk (("0123456789" : String).data.take 9)).length = 9 ∧
    ∃ r, getPossibleNubanBanks "0123456789" WEIGHTED_NIGERIAN_BANKS =
      Except.ok r :=
  getPossibleBanks_total "0123456789" WEIGHTED_NIGERIAN_BANKS
    (by decide) (by decide)

end NgBankValidator
